import Mathlib

/-!
Shallow embedding of the in-memory stock store HTTP route
(`src/unnamed/part_000` of MNI-BUILDER/bloxfritushit).

The route keeps a global `Map<string, StockData>` (`stocksData`), sweeps
entries older than `DATA_EXPIRY` and exposes GET/POST/PUT/DELETE/PATCH
handlers.  The map is modelled as an association list with JS-`Map`
semantics (`set` replaces in place, `delete` removes, iteration order is
insertion order); JSON dynamism (a field that may be a number or a
string) is modelled with `JsonVal`; JS truthiness of optional strings is
made explicit.  Timestamps are `Nat` milliseconds; the subtraction
`now - lastUpdated` from the source is computed in `Int`, as JS numbers
never truncate.
-/

namespace BloxStore

/-- A JSON scalar as it matters to the handlers: the source checks
`typeof x === "number"`, so we only distinguish numbers from strings. -/
inductive JsonVal where
  | num (n : Int)
  | str (s : String)
deriving DecidableEq, Repr

/-- `interface StockData` from the source.  `price` and `quantity` are
`JsonVal` because PUT copies body fields in with `??` and performs no
type check, so a stored value can be a string at runtime. -/
structure StockData where
  id : String
  name : String
  price : JsonVal
  quantity : JsonVal
  lastUpdated : Nat
  createdAt : Nat
deriving DecidableEq, Repr

/-- The global `stocksData` map, as an insertion-ordered association list. -/
abbrev Store := List (String × StockData)

/-- `const DATA_EXPIRY = 10 * 60 * 1000` (10 minutes). -/
def DATA_EXPIRY : Nat := 10 * 60 * 1000

/-- `const CLEANUP_INTERVAL = 5 * 60 * 1000` (5 minutes). -/
def CLEANUP_INTERVAL : Nat := 5 * 60 * 1000

/-- `stocksData.set(k, v)`: JS `Map.set` replaces an existing key in
place (keeping its position) and appends a new key at the end. -/
def mapSet (m : Store) (k : String) (v : StockData) : Store :=
  if m.any (fun p => p.1 == k) then
    m.map (fun p => if p.1 == k then (k, v) else p)
  else m ++ [(k, v)]

/-- `stocksData.get(k)`. -/
def mapGet (m : Store) (k : String) : Option StockData :=
  (m.find? (fun p => p.1 == k)).map Prod.snd

/-- `stocksData.delete(k)`. -/
def mapDelete (m : Store) (k : String) : Store :=
  m.filter (fun p => p.1 != k)

/-- JS truthiness of an optional string field: `undefined`/`null` and
`""` are falsy; every other string is truthy. -/
def jsTruthy (s : Option String) : Bool :=
  match s with
  | none => false
  | some s => !(s == "")

/-- `typeof x === "number"` on an optional JSON field. -/
def isNumVal (v : Option JsonVal) : Bool :=
  match v with
  | some (.num _) => true
  | _ => false

/-- The whitespace class of the JS regex `\s` (the characters relevant
to ASCII names; `\s` also matches further Unicode spaces). -/
def isWs (c : Char) : Bool :=
  c == ' ' || c == '\t' || c == '\n' || c == '\r' ||
  c == '\x0b' || c == '\x0c'

/-- `replace(/\s+/g, "-")` on a character list: each maximal run of
whitespace becomes a single `'-'`.  The flag records whether the
previous character was part of a whitespace run. -/
def squashWsAux : Bool → List Char → List Char
  | _, [] => []
  | inRun, c :: cs =>
    if isWs c then
      if inRun then squashWsAux true cs
      else '-' :: squashWsAux true cs
    else c :: squashWsAux false cs

/-- `name.toLowerCase().replace(/\s+/g, "-")` from the id derivations. -/
def normalizeName (s : String) : String :=
  ⟨squashWsAux false (s.data.map Char.toLower)⟩

/-- `sessionId.slice(-8)`: the last 8 characters, or the whole string
when it is shorter (JS clamps the negative start index to 0). -/
def sliceLast8 (s : String) : String :=
  ⟨s.data.drop (s.data.length - 8)⟩

/-- Does `needle` occur at the head of `hay`? -/
def charsLead : List Char → List Char → Bool
  | [], _ => true
  | _ :: _, [] => false
  | a :: as, b :: bs => a == b && charsLead as bs

/-- `hay.includes(needle)` on character lists. -/
def charsContain (needle : List Char) : List Char → Bool
  | [] => needle.isEmpty
  | c :: cs => charsLead needle (c :: cs) || charsContain needle cs

/-- `key.includes(sub)` (JS `String.prototype.includes`). -/
def strContains (s sub : String) : Bool :=
  charsContain sub.data s.data

/-- `s.endsWith(suf)`. -/
def strEndsWith (s suf : String) : Bool :=
  charsLead suf.data.reverse s.data.reverse

/-- `authorize(request, method)`: `true` means the request passes.
Public access is a GET with `?key=status`; otherwise the
`Authorization` header must equal the fixed secret `"GAMERSBERG"`
(the source also rejects a missing header, which equality with `some`
already covers). -/
def authorize (method : String) (keyParam authHeader : Option String) : Bool :=
  if method == "GET" && keyParam == some "status" then true
  else authHeader == some "GAMERSBERG"

/-- `cleanupExpiredData()`: deletes every entry with
`now - data.lastUpdated > DATA_EXPIRY` while iterating the map. -/
def cleanupExpiredData (now : Nat) (m : Store) : Store :=
  m.filter (fun p => !(decide ((now : Int) - (p.2.lastUpdated : Int) > (DATA_EXPIRY : Int))))

/-- One element of `normalStock` / `mirageStock` as the handler reads
it: `fruit.name` and `fruit.price`, each possibly absent or mistyped.
A non-string `name` is not modelled; the handler only tests its
truthiness and `"Apple"`-like values are the intended shape. -/
structure FruitItem where
  name : Option String
  price : Option JsonVal
deriving DecidableEq, Repr

/-- The JSON body of a POST: either the Roblox session-batch shape
(`sessionId` + stock arrays) or the generic record `{name, price,
quantity}`.  Absent fields are `none`. -/
structure PostBody where
  sessionId : Option String
  normalStock : Option (List FruitItem)
  mirageStock : Option (List FruitItem)
  name : Option String
  price : Option JsonVal
  quantity : Option JsonVal
deriving DecidableEq, Repr

/-- `if (fruit.name && typeof fruit.price === "number")`. -/
def validFruit (f : FruitItem) : Bool :=
  jsTruthy f.name && isNumVal f.price

/-- The derived id of a batch entry:
`` `${tag}-${name.toLowerCase().replace(/\s+/g, "-")}-${sessionId.slice(-8)}` ``. -/
def fruitId (tag name sessionId : String) : String :=
  tag ++ "-" ++ normalizeName name ++ "-" ++ sliceLast8 sessionId

/-- The loop body for one element of a stock array: a valid element is
upserted with `quantity = 1`, `lastUpdated = createdAt = now`; an
invalid one is skipped. -/
def processFruit (tag vtag sessionId : String) (now : Nat)
    (m : Store) (f : FruitItem) : Store :=
  if validFruit f then
    let n := f.name.getD ""
    let p := match f.price with
      | some (.num p) => p
      | _ => 0
    let id := fruitId tag n sessionId
    mapSet m id
      { id := id
        name := n ++ " (" ++ vtag ++ ")"
        price := .num p
        quantity := .num 1
        lastUpdated := now
        createdAt := now }
  else m

/-- The result of a POST: HTTP status, the store afterwards, and the
created entry when the generic branch created one. -/
structure PostOut where
  status : Nat
  store : Store
  created : Option StockData
deriving DecidableEq, Repr

/-- `POST(request)`, after authorization and body parse.  The batch
branch is taken when `body.sessionId` is truthy and at least one stock
array is present (a JS array, even empty, is truthy); it processes
`normalStock` then `mirageStock` and answers 201.  Otherwise the
generic record is validated (`!name`, `typeof price !== "number"`,
`typeof quantity !== "number"` each cause a 400) and upserted at the
id `` `${normalized-name}-${Date.now()}` ``. -/
def POST (now : Nat) (m : Store) (body : PostBody) : PostOut :=
  if jsTruthy body.sessionId && (body.normalStock.isSome || body.mirageStock.isSome) then
    let sid := body.sessionId.getD ""
    let m1 := match body.normalStock with
      | some l => l.foldl (processFruit "normal" "Normal" sid now) m
      | none => m
    let m2 := match body.mirageStock with
      | some l => l.foldl (processFruit "mirage" "Mirage" sid now) m1
      | none => m1
    ⟨201, m2, none⟩
  else
    if jsTruthy body.name && isNumVal body.price && isNumVal body.quantity then
      let n := body.name.getD ""
      let id := normalizeName n ++ "-" ++ toString now
      let e : StockData :=
        { id := id
          name := n
          price := body.price.getD (.num 0)
          quantity := body.quantity.getD (.num 0)
          lastUpdated := now
          createdAt := now }
      ⟨201, mapSet m id e, some e⟩
    else ⟨400, m, none⟩

/-- The JSON body of a PUT: `{id, name?, price?, quantity?}`. -/
structure PutBody where
  id : Option String
  name : Option String
  price : Option JsonVal
  quantity : Option JsonVal
deriving DecidableEq, Repr

/-- The result of a PUT: status, the store afterwards, and the merged
entry on success. -/
structure PutOut where
  status : Nat
  store : Store
  data : Option StockData
deriving DecidableEq, Repr

/-- `PUT(request)`: 400 when `!id`, 404 when the id is unknown;
otherwise each provided field overrides the existing one via `??`
(nullish coalescing: an absent field falls back, any present value —
even `""` or a string price — is taken), `lastUpdated` is refreshed and
`createdAt` rides along in the `...existingStock` spread. -/
def PUT (now : Nat) (m : Store) (body : PutBody) : PutOut :=
  if !(jsTruthy body.id) then ⟨400, m, none⟩
  else
    let id := body.id.getD ""
    match mapGet m id with
    | none => ⟨404, m, none⟩
    | some e =>
      let upd : StockData :=
        { e with
          name := body.name.getD e.name
          price := body.price.getD e.price
          quantity := body.quantity.getD e.quantity
          lastUpdated := now }
      ⟨200, mapSet m id upd, some upd⟩

/-- The result of a PATCH: status, store afterwards, and the refreshed
`lastUpdated` echoed on success. -/
structure PatchOut where
  status : Nat
  store : Store
  lastUpdated : Option Nat
deriving DecidableEq, Repr

/-- `PATCH(request)` (keep-alive ping): 400 when `!id`, 404 when the id
is unknown; otherwise only `lastUpdated` is assigned and the entry is
`set` back under the same key. -/
def PATCH (now : Nat) (m : Store) (id : Option String) : PatchOut :=
  if !(jsTruthy id) then ⟨400, m, none⟩
  else
    let i := id.getD ""
    match mapGet m i with
    | none => ⟨404, m, none⟩
    | some e => ⟨200, mapSet m i { e with lastUpdated := now }, some now⟩

/-- The JSON body of a bulk DELETE: `{sessionId, reason?}`. -/
structure DelBody where
  sessionId : Option String
  reason : Option String
deriving DecidableEq, Repr

/-- The result of a DELETE: status, store afterwards, the bulk-wipe
count when that branch ran, and the removed entry for a by-id delete. -/
structure DelOut where
  status : Nat
  store : Store
  deletedCount : Option Nat
  deletedData : Option StockData
deriving DecidableEq, Repr

/-- `DELETE(request)`: with no (truthy) `id` query parameter the body is
parsed (`body = none` models a parse failure); a truthy
`body.sessionId` triggers the session wipe, deleting every key that
`includes` the last 8 characters of the sessionId and counting the
deletions; otherwise 400.  With an `id` the entry is removed and
returned, or 404. -/
def DELETE (m : Store) (idParam : Option String) (body : Option DelBody) : DelOut :=
  if !(jsTruthy idParam) then
    match body with
    | some b =>
      if jsTruthy b.sessionId then
        let suffix := sliceLast8 (b.sessionId.getD "")
        let kept := m.filter (fun p => !(strContains p.1 suffix))
        let count := (m.filter (fun p => strContains p.1 suffix)).length
        ⟨200, kept, some count, none⟩
      else ⟨400, m, none, none⟩
    | none => ⟨400, m, none, none⟩
  else
    let id := idParam.getD ""
    match mapGet m id with
    | none => ⟨404, m, none, none⟩
    | some e => ⟨200, mapDelete m id, none, some e⟩

/-- The result of a GET: status, the store after the eager sweep, the
by-id entry, the full listing, and the `access` marker the public path
spreads into the body. -/
structure GetOut where
  status : Nat
  store : Store
  single : Option StockData
  list : Option (List StockData)
  access : Option String
deriving DecidableEq, Repr

/-- `GET(request)` after authorization: runs `cleanupExpiredData()`
first, then answers by id (404 when absent) or with the full listing;
`{access: "public"}` is spread in only when `?key=status` was used. -/
def GET (now : Nat) (m : Store) (idParam keyParam : Option String) : GetOut :=
  let isPublicAccess := keyParam == some "status"
  let m1 := cleanupExpiredData now m
  if jsTruthy idParam then
    match mapGet m1 (idParam.getD "") with
    | none => ⟨404, m1, none, none, none⟩
    | some e => ⟨200, m1, some e, none, if isPublicAccess then some "public" else none⟩
  else
    ⟨200, m1, none, some (m1.map Prod.snd),
      if isPublicAccess then some "public" else none⟩

/-- The full GET handler including the `authorize` boundary filter:
401 leaves the store untouched (no sweep happens before the filter). -/
def GETHandler (now : Nat) (m : Store) (idParam keyParam authHeader : Option String) :
    GetOut :=
  if authorize "GET" keyParam authHeader then GET now m idParam keyParam
  else ⟨401, m, none, none, none⟩

/-- `(now : Int) - lastUpdated > DATA_EXPIRY`: the entry is logically
dead at time `now`. -/
def expiredAt (now : Nat) (e : StockData) : Prop :=
  (now : Int) - (e.lastUpdated : Int) > (DATA_EXPIRY : Int)

instance (now : Nat) (e : StockData) : Decidable (expiredAt now e) := by
  unfold expiredAt; infer_instance

/-! ## Lemmas about the JS `Map` operations -/

theorem mapGet_eq_some_mem {m : Store} {k : String} {e : StockData}
    (h : mapGet m k = some e) : (k, e) ∈ m := by
  unfold mapGet at h
  cases hf : m.find? (fun p => p.1 == k) with
  | none => rw [hf] at h; simp at h
  | some p =>
    rw [hf] at h
    simp at h
    have hm := List.mem_of_find?_eq_some hf
    have hp := List.find?_some hf
    obtain ⟨k', e'⟩ := p
    simp at hp h
    subst hp; subst h
    exact hm

theorem find?_map_keyReplace (ps : Store) (k k' : String) (v : StockData)
    (hk : k ≠ k') :
    (ps.map (fun q => if q.1 == k then (k, v) else q)).find? (fun q => q.1 == k') =
      ps.find? (fun q => q.1 == k') := by
  induction ps with
  | nil => rfl
  | cons q qs ih =>
    rw [List.map_cons]
    by_cases hq : q.1 = k
    · have h1 : (fun q : String × StockData => q.1 == k') ((k, v)) = false := by
        simp [beq_false_of_ne (Ne.symm (Ne.symm hk))]
      have h2 : (if (q.1 == k) = true then (k, v) else q) = (k, v) := by
        simp [hq]
      rw [h2, List.find?_cons_of_neg _ (by simp [beq_false_of_ne hk]),
        List.find?_cons_of_neg _ (by simp [hq, beq_false_of_ne hk]), ih]
    · have h2 : (if (q.1 == k) = true then (k, v) else q) = q := by
        simp [beq_false_of_ne hq]
      rw [h2]
      by_cases hq' : q.1 = k'
      · rw [List.find?_cons_of_pos _ (by simp [hq']),
          List.find?_cons_of_pos _ (by simp [hq'])]
      · rw [List.find?_cons_of_neg _ (by simp [beq_false_of_ne hq']),
          List.find?_cons_of_neg _ (by simp [beq_false_of_ne hq']), ih]

theorem mapGet_mapSet_self (m : Store) (k : String) (v : StockData) :
    mapGet (mapSet m k v) k = some v := by
  induction m with
  | nil => simp [mapSet, mapGet, List.find?]
  | cons p ps ih =>
    by_cases hp : p.1 = k
    · simp [mapSet, mapGet, List.find?, hp]
    · have hany : ((p :: ps).any fun q => q.1 == k) = (ps.any fun q => q.1 == k) := by
        simp [beq_false_of_ne hp]
      by_cases ha : (ps.any fun q => q.1 == k) = true
      · simp only [mapSet, hany, ha, if_true, List.map_cons]
        simp only [mapSet, ha, if_true] at ih
        have h2 : (if (p.1 == k) = true then (k, v) else p) = p := by
          simp [beq_false_of_ne hp]
        rw [h2]
        unfold mapGet at ih ⊢
        rw [List.find?_cons_of_neg _ (by simp [beq_false_of_ne hp])]
        exact ih
      · simp only [mapSet, hany, ha, if_false, Bool.false_eq_true, List.cons_append]
        simp only [mapSet, ha, if_false, Bool.false_eq_true] at ih
        unfold mapGet at ih ⊢
        rw [List.find?_cons_of_neg _ (by simp [beq_false_of_ne hp])]
        exact ih

theorem mapGet_mapSet_ne (m : Store) (k k' : String) (v : StockData)
    (h : k' ≠ k) : mapGet (mapSet m k v) k' = mapGet m k' := by
  unfold mapSet
  by_cases ha : (m.any fun q => q.1 == k) = true
  · simp only [ha, if_true]
    unfold mapGet
    rw [find?_map_keyReplace m k k' v (Ne.symm h)]
  · simp only [ha, if_false, Bool.false_eq_true]
    unfold mapGet
    rw [List.find?_append]
    have h1 : ([(k, v)].find? fun q => q.1 == k') = none := by
      simp [List.find?, beq_false_of_ne (Ne.symm h)]
    cases hf : m.find? fun q => q.1 == k' <;> simp [hf, h1]

theorem mapGet_mapSet_isSome (m : Store) (k k' : String) (v : StockData)
    (h : (mapGet m k').isSome = true) :
    (mapGet (mapSet m k v) k').isSome = true := by
  by_cases hk : k' = k
  · subst hk; rw [mapGet_mapSet_self]; rfl
  · rw [mapGet_mapSet_ne m k k' v hk]; exact h

/-! ## Lemmas about the sweep and GET -/

theorem mem_cleanupExpiredData (now : Nat) (m : Store) (k : String) (e : StockData) :
    (k, e) ∈ cleanupExpiredData now m ↔ ((k, e) ∈ m ∧ ¬ expiredAt now e) := by
  simp [cleanupExpiredData, List.mem_filter, expiredAt]

theorem cleanup_sublist (now : Nat) (m : Store) :
    List.Sublist (cleanupExpiredData now m) m := List.filter_sublist m

theorem GET_mem_cleanup (now : Nat) (m : Store) (idp keyp : Option String) (e : StockData)
    (h : (GET now m idp keyp).single = some e ∨
      ∃ l, (GET now m idp keyp).list = some l ∧ e ∈ l) :
    ∃ k, (k, e) ∈ cleanupExpiredData now m := by
  unfold GET at h
  by_cases hid : jsTruthy idp = true
  · simp only [hid, if_true] at h
    cases hg : mapGet (cleanupExpiredData now m) (idp.getD "") with
    | none => simp [hg] at h
    | some e' =>
      simp only [hg] at h
      have he : e' = e := by
        rcases h with h | ⟨l, hl, _⟩
        · simpa using h
        · simp at hl
      subst he
      exact ⟨idp.getD "", mapGet_eq_some_mem hg⟩
  · simp only [hid, if_false, Bool.false_eq_true] at h
    rcases h with h | ⟨l, hl, hm⟩
    · simp at h
    · have hl' : l = (cleanupExpiredData now m).map Prod.snd := by simpa using hl.symm
      subst hl'
      rcases List.mem_map.mp hm with ⟨⟨k, e'⟩, hke, he⟩
      subst he
      exact ⟨k, hke⟩

/-! ## Concrete inputs used by counterexamples and witnesses -/

def c1Body : PostBody :=
  { sessionId := some "abcdefgh12345678"
    normalStock := some [⟨some "Apple", some (.num 100)⟩]
    mirageStock := none
    name := none, price := none, quantity := none }

def c1Entry : StockData :=
  ⟨"normal-apple-12345678", "Apple (Normal)", .num 100, .num 1, 0, 0⟩

def c1Store : Store := [("normal-apple-12345678", c1Entry)]

def c2Entry : StockData := ⟨"a", "A", .num 1, .num 1, 50, 50⟩

/-- C1 (counterexample): `createdAt` is NOT immutable: a session-batch
upsert of the already-present derived id `"normal-apple-12345678"`
replaces the whole entry, moving `createdAt` from 0 to the batch time 5. -/
theorem batch_upsert_resets_createdAt :
    (mapGet c1Store "normal-apple-12345678").map StockData.createdAt = some 0 ∧
    (mapGet (POST 5 c1Store c1Body).store "normal-apple-12345678").map
      StockData.createdAt = some 5 := by decide

/-- C1 (amended): a partial update (PUT) and a keep-alive ping (PATCH)
never change any entry's `createdAt`; only batch/generic re-insertion
through POST can replace it. -/
theorem put_patch_preserve_createdAt (now : Nat) (m : Store) (b : PutBody)
    (idp : Option String) (k : String) :
    (mapGet (PUT now m b).store k).map StockData.createdAt =
      (mapGet m k).map StockData.createdAt ∧
    (mapGet (PATCH now m idp).store k).map StockData.createdAt =
      (mapGet m k).map StockData.createdAt := by
  constructor
  · unfold PUT
    by_cases hb : jsTruthy b.id = true
    · simp only [hb, Bool.not_true, Bool.false_eq_true, if_false]
      cases hg : mapGet m (b.id.getD "") with
      | none => simp
      | some e =>
        simp only []
        by_cases hk : k = b.id.getD ""
        · subst hk
          rw [mapGet_mapSet_self, hg]
          rfl
        · rw [mapGet_mapSet_ne _ _ _ _ hk]
    · simp only [Bool.not_eq_true] at hb
      simp [hb]
  · unfold PATCH
    by_cases hb : jsTruthy idp = true
    · simp only [hb, Bool.not_true, Bool.false_eq_true, if_false]
      cases hg : mapGet m (idp.getD "") with
      | none => simp
      | some e =>
        simp only []
        by_cases hk : k = idp.getD ""
        · subst hk
          rw [mapGet_mapSet_self, hg]
          rfl
        · rw [mapGet_mapSet_ne _ _ _ _ hk]
    · simp only [Bool.not_eq_true] at hb
      simp [hb]

/-- C2: no GET response (by id or list), through the full handler with
the boundary filter, ever contains an entry that is expired relative to
the request time: the eager sweep runs before the read. -/
theorem get_never_returns_expired (now : Nat) (m : Store)
    (idp keyp ah : Option String) (e : StockData)
    (h : (GETHandler now m idp keyp ah).single = some e ∨
      ∃ l, (GETHandler now m idp keyp ah).list = some l ∧ e ∈ l) :
    ¬ expiredAt now e := by
  unfold GETHandler at h
  by_cases hauth : authorize "GET" keyp ah = true
  · rw [if_pos hauth] at h
    obtain ⟨k, hk⟩ := GET_mem_cleanup now m idp keyp e h
    exact ((mem_cleanupExpiredData now m k e).mp hk).2
  · rw [if_neg (by simpa using hauth)] at h
    rcases h with h | ⟨l, hl, _⟩
    · simp at h
    · simp at hl

/-- C2 witness: a live entry returned by a public by-id GET is not
expired at the request time. -/
theorem get_never_returns_expired_witness : ¬ expiredAt 100 c2Entry :=
  get_never_returns_expired 100 [("a", c2Entry)] (some "a") (some "status") none
    c2Entry (Or.inl (by decide))

/-- C3: one sweep at time `now` keeps exactly the pairs that were in the
store and are not expired (all fields preserved — the very pair
survives), and the result is a sublist of the original store, so no
other entry is touched or reordered. -/
theorem sweep_removes_exactly_expired (now : Nat) (m : Store) :
    (∀ k e, (k, e) ∈ cleanupExpiredData now m ↔ ((k, e) ∈ m ∧ ¬ expiredAt now e)) ∧
    List.Sublist (cleanupExpiredData now m) m :=
  ⟨fun k e => mem_cleanupExpiredData now m k e, cleanup_sublist now m⟩

theorem length_filter_compl (l : Store) (s : String) :
    (l.filter (fun p => strContains p.1 s)).length =
      l.length - (l.filter (fun p => !(strContains p.1 s))).length := by
  induction l with
  | nil => rfl
  | cons x xs ih =>
    have hb := List.length_filter_le (fun p => !(strContains p.1 s)) xs
    by_cases hx : strContains x.1 s = true
    · simp [List.filter_cons, hx, ih]
      omega
    · simp [List.filter_cons, hx, ih]

def c4Body : PostBody :=
  { sessionId := some "abcdefgh12345678"
    normalStock := some [⟨some "Apple", some (.num 100)⟩]
    mirageStock := some [⟨some "Banana", some (.num 200)⟩]
    name := none, price := none, quantity := none }

/-- Claim C4: posting the session batch with one valid element per
category into an empty store creates exactly the two expected entries:
quantity 1, ids `tag ++ normalized name ++ last 8 of the sessionId`
(ending in `"12345678"`), names suffixed with the category's variant
tag. -/
theorem session_batch_creates_two_entries :
    (POST 1000 [] c4Body).status = 201 ∧
    (POST 1000 [] c4Body).store =
      [("normal-apple-12345678",
        ⟨"normal-apple-12345678", "Apple (Normal)", .num 100, .num 1, 1000, 1000⟩),
       ("mirage-banana-12345678",
        ⟨"mirage-banana-12345678", "Banana (Mirage)", .num 200, .num 1, 1000, 1000⟩)] ∧
    sliceLast8 "abcdefgh12345678" = "12345678" ∧
    strEndsWith "normal-apple-12345678" "12345678" = true ∧
    strEndsWith "mirage-banana-12345678" "12345678" = true ∧
    "normal-apple-12345678" = fruitId "normal" "Apple" "abcdefgh12345678" ∧
    "mirage-banana-12345678" = fruitId "mirage" "Banana" "abcdefgh12345678" := by
  decide

/-- Claim C5: a DELETE with a sessionId body and no id query parameter
keeps exactly the entries whose id does not contain the last 8
characters of the sessionId (each surviving pair untouched), answers
200, and reports a deletedCount equal to the number of entries
removed. -/
theorem delete_by_session_suffix (m : Store) (sid : String) (r : Option String)
    (h : sid ≠ "") :
    (DELETE m none (some ⟨some sid, r⟩)).status = 200 ∧
    (∀ k e, (k, e) ∈ (DELETE m none (some ⟨some sid, r⟩)).store ↔
      ((k, e) ∈ m ∧ strContains k (sliceLast8 sid) = false)) ∧
    (DELETE m none (some ⟨some sid, r⟩)).deletedCount =
      some (m.length - (DELETE m none (some ⟨some sid, r⟩)).store.length) := by
  have hstep : DELETE m none (some ⟨some sid, r⟩) =
      ⟨200, m.filter (fun p => !(strContains p.1 (sliceLast8 sid))),
        some (m.filter (fun p => strContains p.1 (sliceLast8 sid))).length,
        none⟩ := by
    unfold DELETE
    simp [jsTruthy, h]
  rw [hstep]
  refine ⟨rfl, ?_, ?_⟩
  · intro k e
    simp [List.mem_filter]
  · simp only [Option.some.injEq]
    exact length_filter_compl m (sliceLast8 sid)

def c5Store : Store :=
  [("normal-apple-12345678", ⟨"normal-apple-12345678", "Apple (Normal)", .num 100, .num 1, 0, 0⟩),
   ("normal-apple-87654321", ⟨"normal-apple-87654321", "Apple (Normal)", .num 100, .num 1, 0, 0⟩)]

/-- Claim C5 witness: wiping session `"...12345678"` from a two-session
store deletes exactly the matching entry and counts 1. -/
theorem delete_by_session_suffix_witness :
    (DELETE c5Store none (some ⟨some "abcdefgh12345678", none⟩)).status = 200 ∧
    (DELETE c5Store none (some ⟨some "abcdefgh12345678", none⟩)).deletedCount =
      some (c5Store.length -
        (DELETE c5Store none (some ⟨some "abcdefgh12345678", none⟩)).store.length) := by
  have h := delete_by_session_suffix c5Store "abcdefgh12345678" none (by decide)
  exact ⟨h.1, h.2.2⟩

/-- Claim C6: a POST that does not match the session-batch shape and
whose generic record is invalid (missing/empty name, or non-numeric
price or quantity) answers 400 and leaves the store untouched. -/
theorem generic_post_invalid_rejected (now : Nat) (m : Store) (body : PostBody)
    (hb : (jsTruthy body.sessionId &&
      (body.normalStock.isSome || body.mirageStock.isSome)) = false)
    (hv : (jsTruthy body.name && isNumVal body.price && isNumVal body.quantity) = false) :
    (POST now m body).status = 400 ∧ (POST now m body).store = m := by
  unfold POST
  rw [if_neg (by simp [hb]), if_neg (by simp [hv])]
  exact ⟨rfl, rfl⟩

def c6Body : PostBody :=
  { sessionId := none, normalStock := none, mirageStock := none
    name := some "Apple", price := some (.str "100"), quantity := some (.num 3) }

def c6Store : Store := [("z", ⟨"z", "Z", .num 9, .num 9, 3, 3⟩)]

/-- Claim C6 witness: a generic record whose price is the string
`"100"` is rejected with 400 and the store is unchanged. -/
theorem generic_post_invalid_rejected_witness :
    (POST 7 c6Store c6Body).status = 400 ∧ (POST 7 c6Store c6Body).store = c6Store :=
  generic_post_invalid_rejected 7 c6Store c6Body (by decide) (by decide)

theorem processFruit_preserves_isSome (tag vtag sid : String) (now : Nat)
    (m : Store) (f : FruitItem) (k : String)
    (h : (mapGet m k).isSome = true) :
    (mapGet (processFruit tag vtag sid now m f) k).isSome = true := by
  unfold processFruit
  by_cases hv : validFruit f = true
  · rw [if_pos hv]
    exact mapGet_mapSet_isSome _ _ _ _ h
  · rw [if_neg hv]
    exact h

theorem foldl_processFruit_preserves_isSome (tag vtag sid : String) (now : Nat)
    (l : List FruitItem) (m : Store) (k : String)
    (h : (mapGet m k).isSome = true) :
    (mapGet (l.foldl (processFruit tag vtag sid now) m) k).isSome = true := by
  induction l generalizing m with
  | nil => exact h
  | cons f fs ih =>
    exact ih _ (processFruit_preserves_isSome tag vtag sid now m f k h)

theorem foldl_processFruit_valid_mem (tag vtag sid : String) (now : Nat)
    (l : List FruitItem) (m : Store) (f : FruitItem)
    (hf : f ∈ l) (hv : validFruit f = true) :
    (mapGet (l.foldl (processFruit tag vtag sid now) m)
      (fruitId tag (f.name.getD "") sid)).isSome = true := by
  induction l generalizing m with
  | nil => cases hf
  | cons g gs ih =>
    rcases List.mem_cons.mp hf with hg | hg
    · subst hg
      rw [List.foldl_cons]
      apply foldl_processFruit_preserves_isSome
      simp only [processFruit, hv, if_true]
      rw [mapGet_mapSet_self]
      rfl
    · rw [List.foldl_cons]
      exact ih _ hg

/-- Claim C7: a session-batch POST always answers 201; an element that
misses a (truthy) name or whose price is not a number is skipped — the
per-element step is the identity on the store — while every valid
element ends up stored under its derived id. -/
theorem batch_skips_invalid_elements (now : Nat) (m : Store) (body : PostBody)
    (hb : (jsTruthy body.sessionId &&
      (body.normalStock.isSome || body.mirageStock.isSome)) = true) :
    (POST now m body).status = 201 ∧
    (∀ tag vtag sid now' m' f, validFruit f = false →
      processFruit tag vtag sid now' m' f = m') ∧
    (∀ f, f ∈ body.normalStock.getD [] → validFruit f = true →
      (mapGet (POST now m body).store
        (fruitId "normal" (f.name.getD "") (body.sessionId.getD ""))).isSome = true) ∧
    (∀ f, f ∈ body.mirageStock.getD [] → validFruit f = true →
      (mapGet (POST now m body).store
        (fruitId "mirage" (f.name.getD "") (body.sessionId.getD ""))).isSome = true) := by
  refine ⟨?_, ?_, ?_, ?_⟩
  · unfold POST
    rw [if_pos hb]
  · intro tag vtag sid now' m' f hf
    unfold processFruit
    rw [if_neg (by simp [hf])]
  · intro f hf hv
    unfold POST
    rw [if_pos hb]
    cases hn : body.normalStock with
    | none => rw [hn] at hf; cases hf
    | some l =>
      rw [hn] at hf
      simp only [Option.getD_some] at hf
      have h1 := foldl_processFruit_valid_mem "normal" "Normal"
        (body.sessionId.getD "") now l m f hf hv
      cases hm : body.mirageStock with
      | none => simpa [hn, hm] using h1
      | some lm =>
        have h2 := foldl_processFruit_preserves_isSome "mirage" "Mirage"
          (body.sessionId.getD "") now lm _ _ h1
        simpa [hn, hm] using h2
  · intro f hf hv
    unfold POST
    rw [if_pos hb]
    cases hm : body.mirageStock with
    | none => rw [hm] at hf; cases hf
    | some lm =>
      rw [hm] at hf
      simp only [Option.getD_some] at hf
      cases hn : body.normalStock with
      | none =>
        have h1 := foldl_processFruit_valid_mem "mirage" "Mirage"
          (body.sessionId.getD "") now lm m f hf hv
        simpa [hn, hm] using h1
      | some l =>
        have h1 := foldl_processFruit_valid_mem "mirage" "Mirage"
          (body.sessionId.getD "") now lm
          (l.foldl (processFruit "normal" "Normal" (body.sessionId.getD "") now) m)
          f hf hv
        simpa [hn, hm] using h1

def c7Body : PostBody :=
  { sessionId := some "qrstuvwx00000001"
    normalStock := some [⟨some "Kitsune", some (.str "NaN")⟩,
                         ⟨some "Dragon", some (.num 50)⟩]
    mirageStock := none
    name := none, price := none, quantity := none }

/-- Claim C7 witness: a batch with one string-priced element and one
valid element still answers 201 and stores the valid one. -/
theorem batch_skips_invalid_elements_witness :
    (POST 7 [] c7Body).status = 201 ∧
    (mapGet (POST 7 [] c7Body).store
      (fruitId "normal" "Dragon" "qrstuvwx00000001")).isSome = true := by
  refine ⟨(batch_skips_invalid_elements 7 [] c7Body (by decide)).1, ?_⟩
  have h := (batch_skips_invalid_elements 7 [] c7Body (by decide)).2.2.1
    ⟨some "Dragon", some (.num 50)⟩ (by decide) (by decide)
  simpa using h

/-- Claim C8: PATCH with an unknown id answers 404 and changes nothing;
PATCH with a known id leaves every field of the entry except
`lastUpdated` — and every other entry — untouched. -/
theorem patch_unknown_404_known_touches_only_lastUpdated
    (now : Nat) (m : Store) (id : String) (h : id ≠ "") :
    (mapGet m id = none → PATCH now m (some id) = ⟨404, m, none⟩) ∧
    (∀ e, mapGet m id = some e →
      PATCH now m (some id) =
        ⟨200, mapSet m id { e with lastUpdated := now }, some now⟩ ∧
      mapGet (PATCH now m (some id)).store id = some { e with lastUpdated := now } ∧
      (∀ k, k ≠ id → mapGet (PATCH now m (some id)).store k = mapGet m k)) := by
  have ht : jsTruthy (some id) = true := by simp [jsTruthy, h]
  constructor
  · intro hg
    unfold PATCH
    simp [ht, hg]
  · intro e hg
    have hP : PATCH now m (some id) =
        ⟨200, mapSet m id { e with lastUpdated := now }, some now⟩ := by
      unfold PATCH
      simp [ht, hg]
    refine ⟨hP, ?_, ?_⟩
    · rw [hP]
      exact mapGet_mapSet_self m id _
    · intro k hk
      rw [hP]
      exact mapGet_mapSet_ne m id k _ hk

def c8Entry : StockData := ⟨"k1", "K", .num 2, .num 3, 10, 4⟩

/-- Claim C8 witness: pinging the known id `"k1"` at time 99 refreshes
only its `lastUpdated`. -/
theorem patch_known_id_witness :
    PATCH 99 [("k1", c8Entry)] (some "k1") =
      ⟨200, [("k1", { c8Entry with lastUpdated := 99 })], some 99⟩ := by
  have h := (patch_unknown_404_known_touches_only_lastUpdated 99 [("k1", c8Entry)]
    "k1" (by decide)).2 c8Entry (by decide)
  rw [h.1]
  decide

/-- Claim C9: for any store, a public GET (`?key=status`, any or no
Authorization header) and an authenticated GET (valid header, no
status flag) agree on status, by-id entry, listing and resulting
store; on a 200 they differ only in the `access` marker, present on
the public response and absent on the authenticated one. -/
theorem public_and_authed_get_agree (now : Nat) (m : Store) (idp ah : Option String) :
    ((GETHandler now m idp (some "status") ah).status =
      (GETHandler now m idp none (some "GAMERSBERG")).status) ∧
    ((GETHandler now m idp (some "status") ah).single =
      (GETHandler now m idp none (some "GAMERSBERG")).single) ∧
    ((GETHandler now m idp (some "status") ah).list =
      (GETHandler now m idp none (some "GAMERSBERG")).list) ∧
    ((GETHandler now m idp (some "status") ah).store =
      (GETHandler now m idp none (some "GAMERSBERG")).store) ∧
    ((GETHandler now m idp (some "status") ah).status = 200 →
      (GETHandler now m idp (some "status") ah).access = some "public" ∧
      (GETHandler now m idp none (some "GAMERSBERG")).access = none) := by
  have h1 : authorize "GET" (some "status") ah = true := by simp [authorize]
  have h2 : authorize "GET" none (some "GAMERSBERG") = true := by simp [authorize]
  unfold GETHandler
  rw [if_pos h1, if_pos h2]
  unfold GET
  by_cases hid : jsTruthy idp = true
  · simp only [hid, if_true]
    cases hg : mapGet (cleanupExpiredData now m) (idp.getD "") with
    | none => simp [hg]
    | some e => simp [hg]
  · simp only [hid, if_false, Bool.false_eq_true]
    simp

/-- Claim C9 witness: on a concrete 200 listing, the public response
carries the marker and the authenticated one does not. -/
theorem public_and_authed_get_agree_witness :
    (GETHandler 0 [] none (some "status") none).access = some "public" ∧
    (GETHandler 0 [] none none (some "GAMERSBERG")).access = none :=
  (public_and_authed_get_agree 0 [] none none).2.2.2.2 (by decide)

/-- Claim C10: PATCH does not sweep, so an entry already past the
expiry threshold is still found: the ping answers 200 and resets
`lastUpdated` to the current time, after which the entry is no longer
expired (it is revived). -/
theorem patch_revives_expired_entry (now : Nat) (m : Store) (id : String)
    (e : StockData) (h1 : id ≠ "") (h2 : mapGet m id = some e)
    (_h3 : expiredAt now e) :
    (PATCH now m (some id)).status = 200 ∧
    mapGet (PATCH now m (some id)).store id = some { e with lastUpdated := now } ∧
    ¬ expiredAt now { e with lastUpdated := now } := by
  have ht : jsTruthy (some id) = true := by simp [jsTruthy, h1]
  have hP : PATCH now m (some id) =
      ⟨200, mapSet m id { e with lastUpdated := now }, some now⟩ := by
    unfold PATCH
    simp [ht, h2]
  refine ⟨by rw [hP], ?_, ?_⟩
  · rw [hP]
    exact mapGet_mapSet_self m id _
  · simp [expiredAt, DATA_EXPIRY]

def c10Entry : StockData := ⟨"x", "X", .num 5, .num 1, 0, 0⟩

/-- Claim C10 witness: an entry 600001 ms stale (past the 600000 ms
threshold) is revived by a PATCH at that time. -/
theorem patch_revives_expired_entry_witness :
    (PATCH 600001 [("x", c10Entry)] (some "x")).status = 200 ∧
    mapGet (PATCH 600001 [("x", c10Entry)] (some "x")).store "x" =
      some { c10Entry with lastUpdated := 600001 } ∧
    ¬ expiredAt 600001 { c10Entry with lastUpdated := 600001 } :=
  patch_revives_expired_entry 600001 [("x", c10Entry)] "x" c10Entry
    (by decide) (by decide) (by decide)

end BloxStore
